import Mathlib

/-!
Shallow embedding of the hawarma-preview layout generator (src/app.py) and
proofs about its position resolvers, selection validator, and canvas
compositor.

Python dictionaries preserving insertion order are modelled as association
lists `List (String × Nat)`; Python exceptions are modelled with `Except`;
the file-system asset directory is modelled as a total map from path strings
to an availability state.
-/

namespace Hawarma

/-- Python's `enumerate(xs, start)`: pairs each element with its index. -/
def enumerate : Nat → List α → List (Nat × α)
  | _, [] => []
  | s, x :: xs => (s, x) :: enumerate (s + 1) xs

/-- Worker for `pyDedup`, carrying the set of keys already seen. -/
def pyDedupAux (seen : List String) : List String → List String
  | [] => []
  | x :: xs =>
    if seen.contains x then pyDedupAux seen xs
    else x :: pyDedupAux (x :: seen) xs

/-- Python's `list(dict.fromkeys(xs))`: first-occurrence deduplication
preserving first-seen order. -/
def pyDedup (l : List String) : List String := pyDedupAux [] l

/-- `Recipe` (src/app.py lines 19-28): a pydantic model; every sequence field
defaults to the empty list. `cook_durations` holds floats in the source; it is
never consumed by any layout logic, so its element type is irrelevant and we
use `Rat`. -/
structure Recipe where
  slug : String
  name : String
  raw_ingredients : List String := []
  cookers : List String := []
  cookers_layout : List String := []
  cook_durations : List Rat := []
  condiments : List String := []
deriving DecidableEq, Repr

/-- `get_cookers_positions` (src/app.py lines 44-53): dedup the concatenation
of the recipes' `cookers_layout` sequences, then assign slot `idx+1` when
fewer than 3 distinct cookers, else slot `idx`. -/
def get_cookers_positions (recipes : List Recipe) : List (String × Nat) :=
  let cookers := pyDedup (recipes.flatMap (fun r => r.cookers_layout))
  let cookers_count := cookers.length
  (enumerate 0 cookers).map
    (fun p => (p.2, if cookers_count < 3 then p.1 + 1 else p.1))

/-- `get_raw_ingredients_positions` (src/app.py lines 56-64): dedup the
concatenation of the recipes' `raw_ingredients`, reverse, then assign
ascending slots from 0. -/
def get_raw_ingredients_positions (recipes : List Recipe) : List (String × Nat) :=
  let ingredients :=
    (pyDedup (recipes.flatMap (fun r => r.raw_ingredients))).reverse
  (enumerate 0 ingredients).map (fun p => (p.2, p.1))

/-- `get_condiments_positions` (src/app.py lines 67-74): dedup the
concatenation of the recipes' `condiments`, then assign ascending slots
from 0 (no reversal). -/
def get_condiments_positions (recipes : List Recipe) : List (String × Nat) :=
  let condiments := pyDedup (recipes.flatMap (fun r => r.condiments))
  (enumerate 0 condiments).map (fun p => (p.2, p.1))

/-- `IMAGE_DIR` (src/app.py line 11), as the path prefix it contributes. -/
def IMAGE_DIR : String := "images/"

/-- `ICON_SIZE` (src/app.py line 12). -/
def ICON_SIZE : Nat × Nat := (128, 128)

/-- `CANVAS_WIDTH` (src/app.py line 13). -/
def CANVAS_WIDTH : Nat := 1024

/-- `CANVAS_HEIGHT` (src/app.py line 14). -/
def CANVAS_HEIGHT : Nat := 600

/-- `BACKGROUND_COLOR` (src/app.py line 15). -/
def BACKGROUND_COLOR : Nat × Nat × Nat := (240, 234, 214)

/-- State of one path in the asset directory: absent, present but not
decodable as an image, or present and readable. -/
inductive AssetState
  | missing
  | unreadable
  | readable
deriving DecidableEq, Repr

/-- The asset directory, as a total map from path to state. -/
def AssetStore : Type := String → AssetState

/-- The two PIL/filesystem exceptions the renderer can encounter:
`FileNotFoundError` from opening an absent path, and
`UnidentifiedImageError` from opening a file PIL cannot decode. -/
inductive PILErr
  | fileNotFound
  | unidentified
deriving DecidableEq, Repr

instance {ε : Type u} {α : Type v} [DecidableEq ε] [DecidableEq α] :
    DecidableEq (Except ε α) := fun a b =>
  match a, b with
  | .error x, .error y =>
    if h : x = y then .isTrue (congrArg Except.error h)
    else .isFalse (fun hc => h (Except.error.inj hc))
  | .ok x, .ok y =>
    if h : x = y then .isTrue (congrArg Except.ok h)
    else .isFalse (fun hc => h (Except.ok.inj hc))
  | .error _, .ok _ => .isFalse (fun hc => Except.noConfusion hc)
  | .ok _, .error _ => .isFalse (fun hc => Except.noConfusion hc)

/-- `Path.exists` on the asset directory. -/
def pathExists (store : AssetStore) (p : String) : Bool :=
  match store p with
  | .missing => false
  | _ => true

/-- `Image.open`: raises `FileNotFoundError` on an absent path and
`UnidentifiedImageError` on an undecodable file; otherwise yields the icon,
which we identify with the path it was loaded from (resizing is lossless for
our purposes). -/
def openImage (store : AssetStore) (p : String) : Except PILErr String :=
  match store p with
  | .missing => .error .fileNotFound
  | .unreadable => .error .unidentified
  | .readable => .ok p

/-- One `canvas.paste` call: which icon was pasted and at which coordinates. -/
structure Paste where
  icon : String
  x : Int
  y : Int
deriving DecidableEq, Repr

/-- The composited image: fixed dimensions, background color, and the list of
paste operations performed, in order. -/
structure Canvas where
  width : Nat
  height : Nat
  background : Nat × Nat × Nat
  pastes : List Paste
deriving DecidableEq, Repr

/-- A `try:`/`except FileNotFoundError:` block around one loop body: a
`FileNotFoundError` is caught (the iteration contributes nothing), every
other exception propagates. -/
def catchFNF (act : Except PILErr (Option Paste)) : Except PILErr (Option Paste) :=
  match act with
  | .error .fileNotFound => .ok none
  | r => r

/-- A `for` loop that collects one result per element and aborts at the first
uncaught exception. -/
def mapExcept (f : α → Except ε β) : List α → Except ε (List β)
  | [] => .ok []
  | x :: xs =>
    match f x with
    | .error e => .error e
    | .ok y =>
      match mapExcept f xs with
      | .error e => .error e
      | .ok ys => .ok (y :: ys)

/-- The sort key used at src/app.py lines 114, 131 and 149:
`key=lambda item: item[1]` (ascending slot). -/
def slotLE (a b : String × Nat) : Prop := a.2 ≤ b.2

instance : DecidableRel slotLE := fun a b => Nat.decLe a.2 b.2

instance : IsTotal (String × Nat) slotLE := ⟨fun a b => Nat.le_total a.2 b.2⟩

instance : IsTrans (String × Nat) slotLE := ⟨fun _ _ _ h h2 => Nat.le_trans h h2⟩

/-- Python's stable `sorted(d.items(), key=lambda item: item[1])`. -/
def sortBySlot (m : List (String × Nat)) : List (String × Nat) :=
  List.insertionSort slotLE m

/-- Loop body of the order-icon row (src/app.py lines 92-103): skip silently
when the path does not exist, else open and paste at
`order_start_x + idx * ICON_SIZE[0]`. -/
def orderItem (store : AssetStore) (start_x : Int) (p : Nat × Recipe) :
    Except PILErr (Option Paste) :=
  catchFNF (
    let img_path := IMAGE_DIR ++ "order-" ++ p.2.slug ++ ".png"
    if pathExists store img_path then
      match openImage store img_path with
      | .error e => .error e
      | .ok icon => .ok (some ⟨icon, start_x + (p.1 : Int) * (ICON_SIZE.1 : Int), 10⟩)
    else .ok none)

/-- The order-icon row (src/app.py lines 86-103). -/
def orderPastes (store : AssetStore) (selected_recipes : List Recipe) :
    Except PILErr (List Paste) :=
  let start_x : Int :=
    Int.fdiv ((CANVAS_WIDTH : Int) - (selected_recipes.length : Int) * (ICON_SIZE.1 : Int)) 2
  match mapExcept (orderItem store start_x) (enumerate 0 selected_recipes) with
  | .error e => .error e
  | .ok opts => .ok (opts.filterMap id)

/-- Vertical center used for the cooker row (src/app.py line 111). -/
def cooker_y : Int :=
  Int.fdiv ((CANVAS_HEIGHT : Int) - (ICON_SIZE.2 : Int)) 2

/-- Loop body of the cooker row (src/app.py lines 116-126): try the `.png`
path, fall back to the `.jpg` path when the former does not exist, open, and
paste at `cooker_start_x + idx * ICON_SIZE[0]` where `idx` is the rank in the
slot-sorted order. -/
def cookerItem (store : AssetStore) (start_x : Int) (p : Nat × (String × Nat)) :
    Except PILErr (Option Paste) :=
  catchFNF (
    let primary := IMAGE_DIR ++ p.2.1 ++ ".png"
    let img_path := if pathExists store primary then primary
      else IMAGE_DIR ++ p.2.1 ++ ".jpg"
    match openImage store img_path with
    | .error e => .error e
    | .ok icon => .ok (some ⟨icon, start_x + (p.1 : Int) * (ICON_SIZE.1 : Int), cooker_y⟩))

/-- The cooker row (src/app.py lines 106-126). -/
def cookerPastes (store : AssetStore) (cooker_pos : List (String × Nat)) :
    Except PILErr (List Paste) :=
  let start_x : Int :=
    Int.fdiv ((CANVAS_WIDTH : Int) - (cooker_pos.length : Int) * (ICON_SIZE.1 : Int)) 2
  match mapExcept (cookerItem store start_x) (enumerate 0 (sortBySlot cooker_pos)) with
  | .error e => .error e
  | .ok opts => .ok (opts.filterMap id)

/-- Loop body of the ingredient column (src/app.py lines 131-143):
`row = pos // 2`, `col = pos % 2`, `x = col * S`, `y = (H - S) - row * S`. -/
def ingredientItem (store : AssetStore) (p : String × Nat) :
    Except PILErr (Option Paste) :=
  catchFNF (
    let img_path := IMAGE_DIR ++ p.1 ++ ".png"
    match openImage store img_path with
    | .error e => .error e
    | .ok icon =>
      let row := p.2 / 2
      let col := p.2 % 2
      .ok (some ⟨icon, (col : Int) * (ICON_SIZE.1 : Int),
        ((CANVAS_HEIGHT : Int) - (ICON_SIZE.2 : Int)) - (row : Int) * (ICON_SIZE.2 : Int)⟩))

/-- The ingredient column (src/app.py lines 128-143): iterate the position
map sorted by slot ascending. -/
def ingredientPastes (store : AssetStore) (ingredient_pos : List (String × Nat)) :
    Except PILErr (List Paste) :=
  match mapExcept (ingredientItem store) (sortBySlot ingredient_pos) with
  | .error e => .error e
  | .ok opts => .ok (opts.filterMap id)

/-- Loop body of the condiment column (src/app.py lines 149-159): same
arithmetic as ingredients but anchored at `x = (W - 2*S) + col * S`. -/
def condimentItem (store : AssetStore) (p : String × Nat) :
    Except PILErr (Option Paste) :=
  catchFNF (
    let img_path := IMAGE_DIR ++ p.1 ++ ".png"
    match openImage store img_path with
    | .error e => .error e
    | .ok icon =>
      let row := p.2 / 2
      let col := p.2 % 2
      .ok (some ⟨icon,
        ((CANVAS_WIDTH : Int) - 2 * (ICON_SIZE.1 : Int)) + (col : Int) * (ICON_SIZE.1 : Int),
        ((CANVAS_HEIGHT : Int) - (ICON_SIZE.2 : Int)) - (row : Int) * (ICON_SIZE.2 : Int)⟩))

/-- The condiment column (src/app.py lines 145-159). -/
def condimentPastes (store : AssetStore) (condiment_pos : List (String × Nat)) :
    Except PILErr (List Paste) :=
  match mapExcept (condimentItem store) (sortBySlot condiment_pos) with
  | .error e => .error e
  | .ok opts => .ok (opts.filterMap id)

/-- `create_layout_image` (src/app.py lines 77-161): fresh canvas of the
configured dimensions and background, then the four icon groups in source
order. An exception not caught by one of the per-icon handlers aborts the
whole render. -/
def create_layout_image (cooker_pos ingredient_pos condiment_pos : List (String × Nat))
    (selected_recipes : List Recipe) (store : AssetStore) : Except PILErr Canvas :=
  match orderPastes store selected_recipes with
  | .error e => .error e
  | .ok po =>
    match cookerPastes store cooker_pos with
    | .error e => .error e
    | .ok pc =>
      match ingredientPastes store ingredient_pos with
      | .error e => .error e
      | .ok pi2 =>
        match condimentPastes store condiment_pos with
        | .error e => .error e
        | .ok pd =>
          .ok ⟨CANVAS_WIDTH, CANVAS_HEIGHT, BACKGROUND_COLOR, po ++ pc ++ pi2 ++ pd⟩

/-- The recipe catalog: the dictionary `load_recipes` builds, keyed by recipe
`name`. Its contents come from `recipes.json`, which is external input, so the
catalog is a parameter here. -/
def Catalog : Type := List (String × Recipe)

/-- The exceptions `generate_layout` can raise: `gr.Error` (the user-facing
validation error), `KeyError` from `all_recipes[name]` on an unknown name,
and a propagated renderer exception. -/
inductive GLError
  | grError (msg : String)
  | keyError (key : String)
  | pilError (e : PILErr)
deriving DecidableEq, Repr

/-- The subscript `all_recipes[name]` (src/app.py line 173): yields the
recipe, or raises `KeyError` on an unknown name. -/
def lookup_recipe (catalog : Catalog) (nm : String) : Except GLError Recipe :=
  match catalog.lookup nm with
  | some r => .ok r
  | none => .error (.keyError nm)

/-- The list comprehension at src/app.py line 173:
`[all_recipes[name] for name in selected_recipe_names]`; a name absent from
the catalog raises `KeyError` at its first occurrence. -/
def resolve_selection (catalog : Catalog) (names : List String) :
    Except GLError (List Recipe) :=
  mapExcept (lookup_recipe catalog) names

/-- `generate_layout` (src/app.py lines 164-185): count validation, catalog
resolution, the three position maps, then the composite image; returns the
image together with the three maps. -/
def generate_layout (catalog : Catalog) (store : AssetStore)
    (selected_recipe_names : List String) :
    Except GLError (Canvas × List (String × Nat) × List (String × Nat) × List (String × Nat)) :=
  if ¬(1 ≤ selected_recipe_names.length ∧ selected_recipe_names.length ≤ 4) then
    .error (.grError "Please select between 1 and 4 recipes.")
  else
    match resolve_selection catalog selected_recipe_names with
    | .error e => .error e
    | .ok selected_recipes =>
      let cooker_positions := get_cookers_positions selected_recipes
      let ingredient_positions := get_raw_ingredients_positions selected_recipes
      let condiment_positions := get_condiments_positions selected_recipes
      match create_layout_image cooker_positions ingredient_positions
          condiment_positions selected_recipes store with
      | .error e => .error (.pilError e)
      | .ok layout_image =>
        .ok (layout_image, cooker_positions, ingredient_positions, condiment_positions)

/-- The distinct user-facing failure kinds of the Mode B validator, per spec
section 4.2. -/
inductive ModeBError
  | countError
  | parseError
  | countMismatchError
  | duplicateOrderError
  | rangeError
deriving DecidableEq, Repr

/-- Value of a decimal digit character, `none` on a non-digit. -/
def digitVal (c : Char) : Option Nat :=
  if '0' ≤ c ∧ c ≤ '9' then some (c.toNat - '0'.toNat) else none

/-- Accumulate decimal digits; fails on the first non-digit. -/
def parseNatAux : Nat → List Char → Option Nat
  | acc, [] => some acc
  | acc, c :: cs =>
    match digitVal c with
    | none => none
    | some d => parseNatAux (acc * 10 + d) cs

/-- Python's `int(token)` on one token: optional leading minus then at least
one digit. -/
def parseIntTok : List Char → Option Int
  | [] => none
  | '-' :: rest =>
    match rest with
    | [] => none
    | _ => (parseNatAux 0 rest).map (fun n => -(n : Int))
  | cs => (parseNatAux 0 cs).map (fun n => (n : Int))

/-- Python's `s.split(",")`. -/
def splitCommas : List Char → List (List Char)
  | [] => [[]]
  | c :: cs =>
    if c = ',' then [] :: splitCommas cs
    else
      match splitCommas cs with
      | [] => [[c]]
      | t :: ts => (c :: t) :: ts

/-- Parse a comma-separated order string into integers; `none` when any token
fails to parse. -/
def parseOrderInput (s : String) : Option (List Int) :=
  (splitCommas s.data).mapM parseIntTok

/-- Modelled from the spec: the Mode B (free-form explicit order) resolver of
spec section 4.2 is not part of src/app.py (only Mode A is); this follows the
spec's words. Validation in order: selection size in [1,4]; every token of
the comma-separated order string integer-parseable; token count equals
selection size; tokens pairwise distinct; every token in [1, N]. Resolution:
sort the selected catalog indices ascending, pair the i-th sorted index with
the i-th token in typed order (mapping order-number → catalog-index), then
visit order-numbers 1..N ascending. Returns catalog indices. -/
def modeB_resolve (selected : List Nat) (orderInput : String) :
    Except ModeBError (List Nat) :=
  if ¬(1 ≤ selected.length ∧ selected.length ≤ 4) then .error .countError
  else
    match parseOrderInput orderInput with
    | none => .error .parseError
    | some tokens =>
      if tokens.length ≠ selected.length then .error .countMismatchError
      else if ¬tokens.Nodup then .error .duplicateOrderError
      else if ¬(∀ t ∈ tokens, 1 ≤ t ∧ t ≤ (selected.length : Int)) then .error .rangeError
      else
        let sortedSel := List.insertionSort (· ≤ ·) selected
        let mapping := tokens.zip sortedSel
        .ok ((List.range selected.length).filterMap
          (fun k : Nat => mapping.lookup ((k : Int) + 1)))

theorem enumerate_length (s : Nat) (l : List α) : (enumerate s l).length = l.length := by
  induction l generalizing s with
  | nil => rfl
  | cons x xs ih => simp [enumerate, ih]

theorem enumerate_map_snd (s : Nat) (l : List α) : (enumerate s l).map Prod.snd = l := by
  induction l generalizing s with
  | nil => rfl
  | cons x xs ih => simp [enumerate, ih]

theorem enumerate_map_fst (s : Nat) (l : List α) :
    (enumerate s l).map Prod.fst = List.range' s l.length := by
  induction l generalizing s with
  | nil => rfl
  | cons x xs ih => simp [enumerate, ih, List.range'_succ]

theorem enumerate_getElem? (s : Nat) (l : List α) (i : Nat) :
    (enumerate s l)[i]? = l[i]?.map (fun x => (s + i, x)) := by
  induction l generalizing s i with
  | nil => simp [enumerate]
  | cons x xs ih =>
    cases i with
    | zero => simp [enumerate]
    | succ j =>
      have harith : s + 1 + j = s + (j + 1) := by omega
      simp [enumerate, ih (s + 1) j, harith]

theorem map_succ_range' (s n : Nat) :
    (List.range' s n).map (fun k => k + 1) = List.range' (s + 1) n := by
  induction n generalizing s with
  | zero => rfl
  | succ m ih => simp [List.range'_succ, ih]

theorem mem_of_mem_pyDedupAux :
    ∀ (l seen : List String) (a : String), a ∈ pyDedupAux seen l → a ∈ l ∧ a ∉ seen := by
  intro l
  induction l with
  | nil => intro seen a h; simp [pyDedupAux] at h
  | cons x xs ih =>
    intro seen a h
    by_cases hc : seen.contains x
    · rw [pyDedupAux, if_pos hc] at h
      obtain ⟨hm, hns⟩ := ih seen a h
      exact ⟨List.mem_cons_of_mem _ hm, hns⟩
    · rw [pyDedupAux, if_neg hc] at h
      rcases List.mem_cons.mp h with rfl | h2
      · refine ⟨List.mem_cons_self _ _, fun hs => hc ?_⟩
        exact List.elem_iff.mpr hs
      · obtain ⟨hm, hns⟩ := ih (x :: seen) a h2
        exact ⟨List.mem_cons_of_mem _ hm, fun hs => hns (List.mem_cons_of_mem _ hs)⟩

theorem pyDedupAux_nodup : ∀ (l seen : List String), (pyDedupAux seen l).Nodup := by
  intro l
  induction l with
  | nil => intro seen; simp [pyDedupAux]
  | cons x xs ih =>
    intro seen
    by_cases hc : seen.contains x
    · rw [pyDedupAux, if_pos hc]; exact ih seen
    · rw [pyDedupAux, if_neg hc]
      refine List.nodup_cons.mpr ⟨fun hmem => ?_, ih (x :: seen)⟩
      exact (mem_of_mem_pyDedupAux xs (x :: seen) x hmem).2 (List.mem_cons_self _ _)

theorem pyDedup_nodup (l : List String) : (pyDedup l).Nodup := pyDedupAux_nodup l []

theorem lookup_enumerate_map (f : Nat → Nat) :
    ∀ (l : List String), l.Nodup → ∀ (s i : Nat) (h : i < l.length),
    ((enumerate s l).map (fun p => (p.2, f p.1))).lookup (l.get ⟨i, h⟩) =
      some (f (s + i)) := by
  intro l
  induction l with
  | nil => intro _ s i h; simp at h
  | cons x xs ih =>
    intro hnd s i h
    cases i with
    | zero => simp [enumerate, List.lookup]
    | succ j =>
      have hj : j < xs.length := Nat.lt_of_succ_lt_succ h
      have hget : (x :: xs).get ⟨j + 1, h⟩ = xs.get ⟨j, hj⟩ := rfl
      have hne : xs.get ⟨j, hj⟩ ≠ x := by
        intro heq
        exact (List.nodup_cons.mp hnd).1 (heq ▸ List.get_mem xs j hj)
      have harith : s + 1 + j = s + (j + 1) := by omega
      rw [hget]
      simp only [enumerate, List.map_cons, List.lookup,
        beq_eq_false_iff_ne.mpr hne]
      rw [ih (List.nodup_cons.mp hnd).2 (s + 1) j hj, harith]

theorem mapExcept_eq_map (f : α → Except ε β) (g : α → β) :
    ∀ l : List α, (∀ x ∈ l, f x = .ok (g x)) → mapExcept f l = .ok (l.map g) := by
  intro l
  induction l with
  | nil => intro _; rfl
  | cons x xs ih =>
    intro hf
    have hx := hf x (List.mem_cons_self _ _)
    have hxs := ih (fun y hy => hf y (List.mem_cons_of_mem _ hy))
    simp [mapExcept, hx, hxs]

theorem mapExcept_isOk (f : α → Except ε β) :
    ∀ l : List α, (∀ x ∈ l, ∃ y, f x = .ok y) → ∃ ys, mapExcept f l = .ok ys := by
  intro l
  induction l with
  | nil => intro _; exact ⟨[], rfl⟩
  | cons x xs ih =>
    intro hf
    obtain ⟨y, hy⟩ := hf x (List.mem_cons_self _ _)
    obtain ⟨ys, hys⟩ := ih (fun z hz => hf z (List.mem_cons_of_mem _ hz))
    exact ⟨y :: ys, by simp [mapExcept, hy, hys]⟩

theorem getElem?_filterMap_of_isSome (f : α → Option β) :
    ∀ (l : List α), (∀ x ∈ l, (f x).isSome) → ∀ k : Nat, (l.filterMap f)[k]? = l[k]?.bind f := by
  intro l
  induction l with
  | nil => intro _ k; simp
  | cons x xs ih =>
    intro hf k
    obtain ⟨b, hb⟩ := Option.isSome_iff_exists.mp (hf x (List.mem_cons_self _ _))
    cases k with
    | zero => simp [List.filterMap_cons, hb]
    | succ j =>
      simp [List.filterMap_cons, hb,
        ih (fun z hz => hf z (List.mem_cons_of_mem _ hz)) j]

theorem length_filterMap_of_isSome (f : α → Option β) :
    ∀ (l : List α), (∀ x ∈ l, (f x).isSome) → (l.filterMap f).length = l.length := by
  intro l
  induction l with
  | nil => intro _; rfl
  | cons x xs ih =>
    intro hf
    obtain ⟨b, hb⟩ := Option.isSome_iff_exists.mp (hf x (List.mem_cons_self _ _))
    simp [List.filterMap_cons, hb,
      ih (fun z hz => hf z (List.mem_cons_of_mem _ hz))]

theorem filterMap_const_none : ∀ l : List α, l.filterMap (fun _ => (none : Option β)) = [] := by
  intro l
  induction l with
  | nil => rfl
  | cons x xs ih => simp [List.filterMap_cons, ih]

theorem orderItem_isOk (store : AssetStore)
    (hnu : ∀ p, store p ≠ AssetState.unreadable) (start_x : Int) (pr : Nat × Recipe) :
    ∃ y, orderItem store start_x pr = .ok y := by
  cases h : store (IMAGE_DIR ++ "order-" ++ pr.2.slug ++ ".png") with
  | missing =>
    exact ⟨none, by simp [orderItem, catchFNF, pathExists, h]⟩
  | unreadable => exact absurd h (hnu _)
  | readable =>
    refine ⟨some ⟨IMAGE_DIR ++ "order-" ++ pr.2.slug ++ ".png",
      start_x + (pr.1 : Int) * (ICON_SIZE.1 : Int), 10⟩, ?_⟩
    simp [orderItem, catchFNF, pathExists, openImage, h]

theorem cookerItem_isOk (store : AssetStore)
    (hnu : ∀ p, store p ≠ AssetState.unreadable) (start_x : Int)
    (pr : Nat × (String × Nat)) : ∃ y, cookerItem store start_x pr = .ok y := by
  cases h : store (IMAGE_DIR ++ pr.2.1 ++ ".png") with
  | unreadable => exact absurd h (hnu _)
  | readable =>
    refine ⟨some ⟨IMAGE_DIR ++ pr.2.1 ++ ".png",
      start_x + (pr.1 : Int) * (ICON_SIZE.1 : Int), cooker_y⟩, ?_⟩
    simp [cookerItem, catchFNF, pathExists, openImage, h]
  | missing =>
    cases h2 : store (IMAGE_DIR ++ pr.2.1 ++ ".jpg") with
    | unreadable => exact absurd h2 (hnu _)
    | missing =>
      exact ⟨none, by simp [cookerItem, catchFNF, pathExists, openImage, h, h2]⟩
    | readable =>
      refine ⟨some ⟨IMAGE_DIR ++ pr.2.1 ++ ".jpg",
        start_x + (pr.1 : Int) * (ICON_SIZE.1 : Int), cooker_y⟩, ?_⟩
      simp [cookerItem, catchFNF, pathExists, openImage, h, h2]

theorem ingredientItem_isOk (store : AssetStore)
    (hnu : ∀ p, store p ≠ AssetState.unreadable) (pr : String × Nat) :
    ∃ y, ingredientItem store pr = .ok y := by
  cases h : store (IMAGE_DIR ++ pr.1 ++ ".png") with
  | missing =>
    exact ⟨none, by simp [ingredientItem, catchFNF, openImage, h]⟩
  | unreadable => exact absurd h (hnu _)
  | readable =>
    refine ⟨some ⟨IMAGE_DIR ++ pr.1 ++ ".png",
      ((pr.2 % 2 : Nat) : Int) * (ICON_SIZE.1 : Int),
      ((CANVAS_HEIGHT : Int) - (ICON_SIZE.2 : Int)) - ((pr.2 / 2 : Nat) : Int) * (ICON_SIZE.2 : Int)⟩, ?_⟩
    simp [ingredientItem, catchFNF, openImage, h]

theorem condimentItem_isOk (store : AssetStore)
    (hnu : ∀ p, store p ≠ AssetState.unreadable) (pr : String × Nat) :
    ∃ y, condimentItem store pr = .ok y := by
  cases h : store (IMAGE_DIR ++ pr.1 ++ ".png") with
  | missing =>
    exact ⟨none, by simp [condimentItem, catchFNF, openImage, h]⟩
  | unreadable => exact absurd h (hnu _)
  | readable =>
    refine ⟨some ⟨IMAGE_DIR ++ pr.1 ++ ".png",
      ((CANVAS_WIDTH : Int) - 2 * (ICON_SIZE.1 : Int)) + ((pr.2 % 2 : Nat) : Int) * (ICON_SIZE.1 : Int),
      ((CANVAS_HEIGHT : Int) - (ICON_SIZE.2 : Int)) - ((pr.2 / 2 : Nat) : Int) * (ICON_SIZE.2 : Int)⟩, ?_⟩
    simp [condimentItem, catchFNF, openImage, h]

theorem orderItem_none (store : AssetStore) (hm : ∀ p, store p = AssetState.missing)
    (start_x : Int) (pr : Nat × Recipe) : orderItem store start_x pr = .ok none := by
  simp [orderItem, catchFNF, pathExists, hm]

theorem cookerItem_none (store : AssetStore) (hm : ∀ p, store p = AssetState.missing)
    (start_x : Int) (pr : Nat × (String × Nat)) : cookerItem store start_x pr = .ok none := by
  simp [cookerItem, catchFNF, pathExists, openImage, hm]

theorem ingredientItem_none (store : AssetStore) (hm : ∀ p, store p = AssetState.missing)
    (pr : String × Nat) : ingredientItem store pr = .ok none := by
  simp [ingredientItem, catchFNF, openImage, hm]

theorem condimentItem_none (store : AssetStore) (hm : ∀ p, store p = AssetState.missing)
    (pr : String × Nat) : condimentItem store pr = .ok none := by
  simp [condimentItem, catchFNF, openImage, hm]

/-- Concrete fixture: a recipe whose layout cooker sequence is `[g, h]`. -/
def rGH : Recipe := { slug := "gh", name := "GH", cookers_layout := ["g", "h"] }

/-- Concrete fixture: a recipe whose layout cooker sequence is `[g, h, i]`. -/
def rGHI : Recipe := { slug := "ghi", name := "GHI", cookers_layout := ["g", "h", "i"] }

/-- Concrete fixture: recipe `A` with raw ingredients `[x, y]`. -/
def rA : Recipe := { slug := "a", name := "A", raw_ingredients := ["x", "y"] }

/-- Concrete fixture: recipe `B` with raw ingredients `[y, z]`. -/
def rB : Recipe := { slug := "b", name := "B", raw_ingredients := ["y", "z"] }

/-- Concrete fixture: a recipe with condiments `[p, q]`. -/
def rPQ : Recipe := { slug := "pq", name := "PQ", condiments := ["p", "q"] }

/-- Concrete fixture: a recipe with a non-empty plain `cookers` sequence but
an empty `cookers_layout`. -/
def rPlain : Recipe := { slug := "pl", name := "Plain", cookers := ["grill"] }

/-- Concrete fixture: a recipe with every sequence field empty. -/
def rEmptyAll : Recipe := { slug := "e", name := "Empty" }

/-- Concrete fixture: an asset directory with every asset present and
readable. -/
def storeAll : AssetStore := fun _ => AssetState.readable

/-- Concrete fixture: an empty asset directory. -/
def storeNone : AssetStore := fun _ => AssetState.missing

/-- Concrete fixture: an asset directory whose only entry, the order icon of
recipe `A`, exists but cannot be decoded as an image. -/
def storeBad : AssetStore := fun p =>
  if p = "images/order-a.png" then AssetState.unreadable else AssetState.missing

/-- Concrete fixture: a one-recipe catalog. -/
def catGH : Catalog := [("GH", rGH)]

/-- C1: for every ordered recipe list, the cooker position map assigns, to the
i-th (0-indexed) cooker id in first-seen dedup order, slot `i+1` when the
number `n` of distinct cooker ids satisfies `n < 3`, and slot `i` otherwise;
in particular 2 distinct cookers `[g, h]` get `{g: 1, h: 2}` and 3 distinct
cookers `[g, h, i]` get `{g: 0, h: 1, i: 2}`. -/
theorem C1_cooker_slot_rule :
    (∀ (recipes : List Recipe) (i : Nat)
      (h : i < (pyDedup (recipes.flatMap (fun r => r.cookers_layout))).length),
      (get_cookers_positions recipes).lookup
        ((pyDedup (recipes.flatMap (fun r => r.cookers_layout))).get ⟨i, h⟩) =
        some (if (pyDedup (recipes.flatMap (fun r => r.cookers_layout))).length < 3
          then i + 1 else i)) ∧
    get_cookers_positions [rGH] = [("g", 1), ("h", 2)] ∧
    get_cookers_positions [rGHI] = [("g", 0), ("h", 1), ("i", 2)] := by
  refine ⟨?_, by decide, by decide⟩
  intro recipes i h
  have hl := lookup_enumerate_map
    (fun idx =>
      if (pyDedup (recipes.flatMap (fun r => r.cookers_layout))).length < 3
      then idx + 1 else idx)
    (pyDedup (recipes.flatMap (fun r => r.cookers_layout)))
    (pyDedup_nodup _) 0 i h
  simpa [get_cookers_positions] using hl

/-- Witness for C1 at the two-cooker example: the 0-th cooker id `g` receives
slot 1. -/
theorem C1_cooker_slot_rule_witness :
    (get_cookers_positions [rGH]).lookup "g" = some 1 := by
  have h : 0 < (pyDedup ([rGH].flatMap (fun r => r.cookers_layout))).length := by decide
  exact C1_cooker_slot_rule.1 [rGH] 0 h

/-- C2: for every ordered recipe list, the ingredient position resolver
concatenates the recipes' raw-ingredient sequences in list order, dedups by
first occurrence, reverses, and assigns ascending slots 0, 1, 2, … to the
reversed sequence; e.g. recipes `[A(x,y), B(y,z)]` give `{z: 0, y: 1, x: 2}`. -/
theorem C2_ingredient_positions_reversed :
    (∀ (recipes : List Recipe) (i : Nat)
      (h : i < (pyDedup (recipes.flatMap (fun r => r.raw_ingredients))).reverse.length),
      (get_raw_ingredients_positions recipes).lookup
        ((pyDedup (recipes.flatMap (fun r => r.raw_ingredients))).reverse.get ⟨i, h⟩) =
        some i) ∧
    get_raw_ingredients_positions [rA, rB] = [("z", 0), ("y", 1), ("x", 2)] := by
  refine ⟨?_, by decide⟩
  intro recipes i h
  have hnd : (pyDedup (recipes.flatMap (fun r => r.raw_ingredients))).reverse.Nodup :=
    List.nodup_reverse.mpr (pyDedup_nodup _)
  have hl := lookup_enumerate_map (fun idx => idx)
    (pyDedup (recipes.flatMap (fun r => r.raw_ingredients))).reverse hnd 0 i h
  simpa [get_raw_ingredients_positions] using hl

/-- Witness for C2 at the example input: ingredient `z` (first of the reversed
dedup order) receives slot 0. -/
theorem C2_ingredient_positions_reversed_witness :
    (get_raw_ingredients_positions [rA, rB]).lookup "z" = some 0 := by
  have h : 0 < (pyDedup ([rA, rB].flatMap (fun r => r.raw_ingredients))).reverse.length := by
    decide
  exact C2_ingredient_positions_reversed.1 [rA, rB] 0 h

/-- C6: for every ordered recipe list, the condiment position resolver dedups
the concatenated condiment sequences by first occurrence and assigns ascending
slots 0, 1, 2, … with no reversal; e.g. condiments `[p, q]` yield
`{p: 0, q: 1}`. -/
theorem C6_condiment_positions_no_reversal :
    (∀ (recipes : List Recipe) (i : Nat)
      (h : i < (pyDedup (recipes.flatMap (fun r => r.condiments))).length),
      (get_condiments_positions recipes).lookup
        ((pyDedup (recipes.flatMap (fun r => r.condiments))).get ⟨i, h⟩) =
        some i) ∧
    get_condiments_positions [rPQ] = [("p", 0), ("q", 1)] := by
  refine ⟨?_, by decide⟩
  intro recipes i h
  have hl := lookup_enumerate_map (fun idx => idx)
    (pyDedup (recipes.flatMap (fun r => r.condiments))) (pyDedup_nodup _) 0 i h
  simpa [get_condiments_positions] using hl

/-- Witness for C6 at the example input: condiment `p` receives slot 0. -/
theorem C6_condiment_positions_no_reversal_witness :
    (get_condiments_positions [rPQ]).lookup "p" = some 0 := by
  have h : 0 < (pyDedup ([rPQ].flatMap (fun r => r.condiments))).length := by decide
  exact C6_condiment_positions_no_reversal.1 [rPQ] 0 h

/-- C3, as stated, is false: the resolver never falls back to the plain
`cookers` sequence. Concretely, `rPlain` has plain cookers `["grill"]` and an
empty layout sequence, yet its cooker position map is empty and `grill` is
absent from it. -/
theorem C3_no_fallback_counterexample :
    rPlain.cookers = ["grill"] ∧ rPlain.cookers_layout = [] ∧
    get_cookers_positions [rPlain] = [] ∧
    (get_cookers_positions [rPlain]).lookup "grill" = none := by decide

/-- C3 amended: the cooker position resolver reads only the `cookers_layout`
sequences (the Recipe model always exposes that field); the plain `cookers`
sequence is never consulted, so a recipe with a non-empty plain cooker
sequence and an empty layout sequence contributes nothing. -/
theorem C3_layout_only_amended :
    (∀ rs rs2 : List Recipe,
      rs.map (fun r => r.cookers_layout) = rs2.map (fun r => r.cookers_layout) →
      get_cookers_positions rs = get_cookers_positions rs2) ∧
    get_cookers_positions [rPlain] = [] := by
  refine ⟨?_, by decide⟩
  intro rs rs2 hsame
  have hflat : rs.flatMap (fun r => r.cookers_layout) =
      rs2.flatMap (fun r => r.cookers_layout) := by
    rw [List.flatMap_def, List.flatMap_def, hsame]
  simp only [get_cookers_positions, hflat]

/-- Witness for C3's amended theorem: `rPlain` (plain cookers `["grill"]`) and
`rEmptyAll` (no cookers at all) have identical layout sequences, hence
identical cooker position maps. -/
theorem C3_layout_only_amended_witness :
    get_cookers_positions [rPlain] = get_cookers_positions [rEmptyAll] :=
  C3_layout_only_amended.1 [rPlain] [rEmptyAll] (by decide)

theorem keys_enumerate_map (f : Nat → Nat) (l : List String) :
    ((enumerate 0 l).map (fun p => (p.2, f p.1))).map Prod.fst = l := by
  rw [List.map_map]
  have hcomp : (Prod.fst ∘ fun p : Nat × String => (p.2, f p.1)) = Prod.snd :=
    funext fun p => rfl
  rw [hcomp, enumerate_map_snd]

theorem values_enumerate_map (f : Nat → Nat) (l : List String) :
    ((enumerate 0 l).map (fun p => (p.2, f p.1))).map Prod.snd =
      (List.range l.length).map f := by
  rw [List.map_map]
  have hcomp : (Prod.snd ∘ fun p : Nat × String => (p.2, f p.1)) = f ∘ Prod.fst :=
    funext fun p => rfl
  rw [hcomp, ← List.map_map, enumerate_map_fst, ← List.range_eq_range']

/-- C9: each of the three position maps is a bijection onto a contiguous
integer range: ingredient and condiment maps onto `{0, …, n-1}`, and the
cooker map onto `{1, …, n}` when `n < 3` and onto `{0, …, n-1}` otherwise,
where `n` is the map's size: the key lists are duplicate-free and the value
lists are exactly the corresponding ranges, in order. -/
theorem C9_maps_bijective_contiguous (rs : List Recipe) :
    ((get_cookers_positions rs).map Prod.fst).Nodup ∧
    ((get_raw_ingredients_positions rs).map Prod.fst).Nodup ∧
    ((get_condiments_positions rs).map Prod.fst).Nodup ∧
    ((get_cookers_positions rs).map Prod.snd =
      if (get_cookers_positions rs).length < 3 then
        List.range' 1 (get_cookers_positions rs).length
      else List.range (get_cookers_positions rs).length) ∧
    (get_raw_ingredients_positions rs).map Prod.snd =
      List.range (get_raw_ingredients_positions rs).length ∧
    (get_condiments_positions rs).map Prod.snd =
      List.range (get_condiments_positions rs).length := by
  have hlenC : (get_cookers_positions rs).length =
      (pyDedup (rs.flatMap (fun r => r.cookers_layout))).length := by
    simp [get_cookers_positions, enumerate_length]
  have hlenI : (get_raw_ingredients_positions rs).length =
      (pyDedup (rs.flatMap (fun r => r.raw_ingredients))).reverse.length := by
    simp [get_raw_ingredients_positions, enumerate_length]
  have hlenD : (get_condiments_positions rs).length =
      (pyDedup (rs.flatMap (fun r => r.condiments))).length := by
    simp [get_condiments_positions, enumerate_length]
  refine ⟨?_, ?_, ?_, ?_, ?_, ?_⟩
  · have hk : (get_cookers_positions rs).map Prod.fst =
        pyDedup (rs.flatMap (fun r => r.cookers_layout)) :=
      keys_enumerate_map
        (fun idx =>
          if (pyDedup (rs.flatMap (fun r => r.cookers_layout))).length < 3
          then idx + 1 else idx)
        (pyDedup (rs.flatMap (fun r => r.cookers_layout)))
    rw [hk]
    exact pyDedup_nodup _
  · have hk : (get_raw_ingredients_positions rs).map Prod.fst =
        (pyDedup (rs.flatMap (fun r => r.raw_ingredients))).reverse :=
      keys_enumerate_map (fun idx => idx)
        (pyDedup (rs.flatMap (fun r => r.raw_ingredients))).reverse
    rw [hk]
    exact List.nodup_reverse.mpr (pyDedup_nodup _)
  · have hk : (get_condiments_positions rs).map Prod.fst =
        pyDedup (rs.flatMap (fun r => r.condiments)) :=
      keys_enumerate_map (fun idx => idx)
        (pyDedup (rs.flatMap (fun r => r.condiments)))
    rw [hk]
    exact pyDedup_nodup _
  · rw [hlenC]
    have hv : (get_cookers_positions rs).map Prod.snd =
        (List.range (pyDedup (rs.flatMap (fun r => r.cookers_layout))).length).map
          (fun idx =>
            if (pyDedup (rs.flatMap (fun r => r.cookers_layout))).length < 3
            then idx + 1 else idx) :=
      values_enumerate_map
        (fun idx =>
          if (pyDedup (rs.flatMap (fun r => r.cookers_layout))).length < 3
          then idx + 1 else idx)
        (pyDedup (rs.flatMap (fun r => r.cookers_layout)))
    rw [hv]
    by_cases h3 : (pyDedup (rs.flatMap (fun r => r.cookers_layout))).length < 3
    · simp only [h3, if_true]
      rw [List.range_eq_range']
      exact map_succ_range' 0 _
    · simp only [h3, if_false]
      simp
  · have hv : (get_raw_ingredients_positions rs).map Prod.snd =
        (List.range (pyDedup (rs.flatMap (fun r => r.raw_ingredients))).reverse.length).map
          (fun idx => idx) :=
      values_enumerate_map (fun idx => idx)
        (pyDedup (rs.flatMap (fun r => r.raw_ingredients))).reverse
    rw [hlenI, hv]
    simp
  · have hv : (get_condiments_positions rs).map Prod.snd =
        (List.range (pyDedup (rs.flatMap (fun r => r.condiments))).length).map
          (fun idx => idx) :=
      values_enumerate_map (fun idx => idx)
        (pyDedup (rs.flatMap (fun r => r.condiments)))
    rw [hlenD, hv]
    simp

theorem filterMap_id_map_some (q : α → β) :
    ∀ l : List α, (l.map (fun x => some (q x))).filterMap id = l.map q := by
  intro l
  induction l with
  | nil => rfl
  | cons x xs ih => simp [List.filterMap_cons, ih]

/-- C8: in the cooker row, icons are drawn left-to-right in ascending slot
order, and each icon's x-offset from the centered block start is its
sort-rank index times the icon size, not its raw slot value times the icon
size. (With every asset readable, nothing is skipped, so the i-th paste is
exactly the i-th entry of the slot-sorted map, at x-offset `i * ICON_SIZE`.) -/
theorem C8_cooker_row_rank_offsets (store : AssetStore) (cooker_pos : List (String × Nat))
    (hread : ∀ p, store p = AssetState.readable) :
    List.Sorted slotLE (sortBySlot cooker_pos) ∧
    ∃ l, cookerPastes store cooker_pos = .ok l ∧
      ∀ i : Nat, l[i]? = (sortBySlot cooker_pos)[i]?.map
        (fun cs => Paste.mk (IMAGE_DIR ++ cs.1 ++ ".png")
          (Int.fdiv ((CANVAS_WIDTH : Int) - (cooker_pos.length : Int) * (ICON_SIZE.1 : Int)) 2
            + (i : Int) * (ICON_SIZE.1 : Int))
          cooker_y) := by
  refine ⟨List.sorted_insertionSort slotLE cooker_pos, ?_⟩
  have hitem : ∀ pr ∈ enumerate 0 (sortBySlot cooker_pos),
      cookerItem store
        (Int.fdiv ((CANVAS_WIDTH : Int) - (cooker_pos.length : Int) * (ICON_SIZE.1 : Int)) 2) pr =
      .ok (some ⟨IMAGE_DIR ++ pr.2.1 ++ ".png",
        Int.fdiv ((CANVAS_WIDTH : Int) - (cooker_pos.length : Int) * (ICON_SIZE.1 : Int)) 2
          + (pr.1 : Int) * (ICON_SIZE.1 : Int), cooker_y⟩) := by
    intro pr _
    simp [cookerItem, catchFNF, pathExists, openImage, hread]
  have hmap := mapExcept_eq_map
    (cookerItem store
      (Int.fdiv ((CANVAS_WIDTH : Int) - (cooker_pos.length : Int) * (ICON_SIZE.1 : Int)) 2))
    (fun pr => some (⟨IMAGE_DIR ++ pr.2.1 ++ ".png",
      Int.fdiv ((CANVAS_WIDTH : Int) - (cooker_pos.length : Int) * (ICON_SIZE.1 : Int)) 2
        + (pr.1 : Int) * (ICON_SIZE.1 : Int), cooker_y⟩ : Paste))
    (enumerate 0 (sortBySlot cooker_pos)) hitem
  refine ⟨(enumerate 0 (sortBySlot cooker_pos)).map
    (fun pr => (⟨IMAGE_DIR ++ pr.2.1 ++ ".png",
      Int.fdiv ((CANVAS_WIDTH : Int) - (cooker_pos.length : Int) * (ICON_SIZE.1 : Int)) 2
        + (pr.1 : Int) * (ICON_SIZE.1 : Int), cooker_y⟩ : Paste)), ?_, ?_⟩
  · simp only [cookerPastes, hmap, filterMap_id_map_some]
  · intro i
    simp only [List.getElem?_map, enumerate_getElem?, Option.map_map]
    cases h : (sortBySlot cooker_pos)[i]? with
    | none => rfl
    | some cs => simp

/-- Witness for C8: with 2 cookers at slots 1 and 2 and every asset readable,
the first drawn icon sits at rank offset 0 (x = 384 = block start), not at
slot offset 1 * 128. -/
theorem C8_cooker_row_rank_offsets_witness :
    (List.Sorted slotLE (sortBySlot [("g", 1), ("h", 2)]) ∧
      ∃ l, cookerPastes storeAll [("g", 1), ("h", 2)] = .ok l ∧
        ∀ i : Nat, l[i]? = (sortBySlot [("g", 1), ("h", 2)])[i]?.map
          (fun cs => Paste.mk (IMAGE_DIR ++ cs.1 ++ ".png")
            (Int.fdiv ((CANVAS_WIDTH : Int) -
                (([("g", 1), ("h", 2)] : List (String × Nat)).length : Int) * (ICON_SIZE.1 : Int)) 2
              + (i : Int) * (ICON_SIZE.1 : Int))
            cooker_y)) ∧
    cookerPastes storeAll [("g", 1), ("h", 2)] =
      .ok [⟨"images/g.png", 384, 236⟩, ⟨"images/h.png", 512, 236⟩] :=
  ⟨C8_cooker_row_rank_offsets storeAll [("g", 1), ("h", 2)] (fun _ => rfl), by decide⟩

theorem filterMap_id_map_none :
    ∀ l : List α, (l.map (fun _ => (none : Option β))).filterMap id = [] := by
  intro l
  induction l with
  | nil => rfl
  | cons x xs ih => simp [List.filterMap_cons, ih]

/-- C5, as stated, is false: a single unreadable (present but undecodable)
asset aborts the whole render, because only `FileNotFoundError` is caught.
Concretely, with a selection of length 1 and an asset directory whose only
entry is recipe `A`'s order icon, present but undecodable, the compositor
raises instead of returning a canvas. -/
theorem C5_unreadable_aborts_counterexample :
    (1 ≤ ([rA] : List Recipe).length ∧ ([rA] : List Recipe).length ≤ 4) ∧
    storeBad "images/order-a.png" = AssetState.unreadable ∧
    create_layout_image [] [] [] [rA] storeBad = .error PILErr.unidentified ∧
    ∀ c : Canvas, create_layout_image [] [] [] [rA] storeBad ≠ .ok c := by
  have herr : create_layout_image [] [] [] [rA] storeBad = .error PILErr.unidentified := by
    decide
  refine ⟨by decide, by decide, herr, ?_⟩
  intro c hc
  rw [herr] at hc
  exact Except.noConfusion hc

/-- C5 amended: a single *missing* asset never aborts the render. For every
input and every asset store with no unreadable entry, the compositor returns
a canvas of the configured dimensions; with zero available assets it returns
a background-only canvas (no pastes) of those dimensions. An unreadable
(present but undecodable) asset, however, aborts the render, since only
file-not-found errors are caught. -/
theorem C5_render_total_amended (cp ip dp : List (String × Nat))
    (rs : List Recipe) (store : AssetStore) :
    ((∀ p, store p ≠ AssetState.unreadable) →
      ∃ c : Canvas, create_layout_image cp ip dp rs store = .ok c ∧
        c.width = CANVAS_WIDTH ∧ c.height = CANVAS_HEIGHT) ∧
    ((∀ p, store p = AssetState.missing) →
      create_layout_image cp ip dp rs store =
        .ok ⟨CANVAS_WIDTH, CANVAS_HEIGHT, BACKGROUND_COLOR, []⟩) := by
  constructor
  · intro hnu
    obtain ⟨o, ho⟩ := mapExcept_isOk
      (orderItem store
        (Int.fdiv ((CANVAS_WIDTH : Int) - (rs.length : Int) * (ICON_SIZE.1 : Int)) 2))
      (enumerate 0 rs) (fun pr _ => orderItem_isOk store hnu _ pr)
    obtain ⟨c, hc⟩ := mapExcept_isOk
      (cookerItem store
        (Int.fdiv ((CANVAS_WIDTH : Int) - (cp.length : Int) * (ICON_SIZE.1 : Int)) 2))
      (enumerate 0 (sortBySlot cp)) (fun pr _ => cookerItem_isOk store hnu _ pr)
    obtain ⟨ii, hi⟩ := mapExcept_isOk (ingredientItem store)
      (sortBySlot ip) (fun pr _ => ingredientItem_isOk store hnu pr)
    obtain ⟨d, hd⟩ := mapExcept_isOk (condimentItem store)
      (sortBySlot dp) (fun pr _ => condimentItem_isOk store hnu pr)
    refine ⟨⟨CANVAS_WIDTH, CANVAS_HEIGHT, BACKGROUND_COLOR,
      o.filterMap id ++ c.filterMap id ++ ii.filterMap id ++ d.filterMap id⟩,
      ?_, rfl, rfl⟩
    simp only [create_layout_image, orderPastes, cookerPastes, ingredientPastes,
      condimentPastes, ho, hc, hi, hd]
  · intro hm
    have ho := mapExcept_eq_map
      (orderItem store
        (Int.fdiv ((CANVAS_WIDTH : Int) - (rs.length : Int) * (ICON_SIZE.1 : Int)) 2))
      (fun _ => (none : Option Paste)) (enumerate 0 rs)
      (fun pr _ => orderItem_none store hm _ pr)
    have hc := mapExcept_eq_map
      (cookerItem store
        (Int.fdiv ((CANVAS_WIDTH : Int) - (cp.length : Int) * (ICON_SIZE.1 : Int)) 2))
      (fun _ => (none : Option Paste)) (enumerate 0 (sortBySlot cp))
      (fun pr _ => cookerItem_none store hm _ pr)
    have hi := mapExcept_eq_map (ingredientItem store)
      (fun _ => (none : Option Paste)) (sortBySlot ip)
      (fun pr _ => ingredientItem_none store hm pr)
    have hd := mapExcept_eq_map (condimentItem store)
      (fun _ => (none : Option Paste)) (sortBySlot dp)
      (fun pr _ => condimentItem_none store hm pr)
    simp only [create_layout_image, orderPastes, cookerPastes, ingredientPastes,
      condimentPastes, ho, hc, hi, hd, filterMap_id_map_none, List.append_nil]

/-- Witness for C5's amended theorem: with the empty asset directory, the
render of one recipe returns the background-only canvas. -/
theorem C5_render_total_amended_witness :
    create_layout_image [] [] [] [rA] storeNone =
      .ok ⟨CANVAS_WIDTH, CANVAS_HEIGHT, BACKGROUND_COLOR, []⟩ :=
  (C5_render_total_amended [] [] [] [rA] storeNone).2 (fun _ => rfl)

theorem resolve_selection_error_key (catalog : Catalog) :
    ∀ (names : List String) (e : GLError),
    resolve_selection catalog names = .error e → ∃ nm, nm ∈ names ∧ e = .keyError nm := by
  intro names
  induction names with
  | nil => intro e h; simp [resolve_selection, mapExcept] at h
  | cons nm rest ih =>
    intro e h
    cases hl : catalog.lookup nm with
    | none =>
      refine ⟨nm, List.mem_cons_self _ _, ?_⟩
      simp only [resolve_selection, mapExcept, lookup_recipe, hl] at h
      exact (Except.error.inj h).symm
    | some r =>
      cases hrest : mapExcept (lookup_recipe catalog) rest with
      | error e2 =>
        have h2 : e = e2 := by
          simp only [resolve_selection, mapExcept, lookup_recipe, hl, hrest] at h
          exact (Except.error.inj h).symm
        obtain ⟨nm2, hmem, he⟩ := ih e2 hrest
        exact ⟨nm2, List.mem_cons_of_mem _ hmem, h2 ▸ he⟩
      | ok ys =>
        exfalso
        simp only [resolve_selection, mapExcept, lookup_recipe, hl, hrest] at h
        exact Except.noConfusion h

theorem resolve_selection_ok_all (catalog : Catalog) :
    ∀ names : List String, (∀ nm ∈ names, (catalog.lookup nm).isSome) →
    resolve_selection catalog names = .ok (names.filterMap (fun nm => catalog.lookup nm)) ∧
    (names.filterMap (fun nm => catalog.lookup nm)).length = names.length := by
  intro names
  induction names with
  | nil => intro _; exact ⟨rfl, rfl⟩
  | cons nm rest ih =>
    intro hmem
    obtain ⟨r, hr⟩ := Option.isSome_iff_exists.mp (hmem nm (List.mem_cons_self _ _))
    obtain ⟨h1, h2⟩ := ih (fun z hz => hmem z (List.mem_cons_of_mem _ hz))
    rw [resolve_selection] at h1
    constructor
    · simp only [resolve_selection, mapExcept, lookup_recipe, hr, h1,
        List.filterMap_cons]
    · simp only [List.filterMap_cons, hr, List.length_cons, h2]

/-- C4: in Mode A (implicit order), resolution fails with a count error if and
only if the selection list's length is outside [1,4]; for every selection of
length 1-4 whose names are all in the catalog, the resolved list is the
selection's recipes in the caller's selection order, unchanged, each
identifier resolved against the catalog. -/
theorem C4_modeA_count_and_order (catalog : Catalog) (store : AssetStore)
    (names : List String) :
    ((∃ msg, generate_layout catalog store names = .error (.grError msg)) ↔
      ¬(1 ≤ names.length ∧ names.length ≤ 4)) ∧
    ((1 ≤ names.length ∧ names.length ≤ 4) →
      (∀ nm ∈ names, (catalog.lookup nm).isSome) →
      resolve_selection catalog names =
        .ok (names.filterMap (fun nm => catalog.lookup nm)) ∧
      (names.filterMap (fun nm => catalog.lookup nm)).length = names.length) := by
  constructor
  · constructor
    · rintro ⟨msg, hmsg⟩ hrange
      rw [generate_layout, if_neg (not_not_intro hrange)] at hmsg
      cases hres : resolve_selection catalog names with
      | error e =>
        simp only [hres] at hmsg
        obtain ⟨nm, _, he⟩ := resolve_selection_error_key catalog names e hres
        rw [he] at hmsg
        exact GLError.noConfusion (Except.error.inj hmsg)
      | ok sel =>
        simp only [hres] at hmsg
        cases himg : create_layout_image (get_cookers_positions sel)
            (get_raw_ingredients_positions sel) (get_condiments_positions sel)
            sel store with
        | error e =>
          simp only [himg] at hmsg
          exact GLError.noConfusion (Except.error.inj hmsg)
        | ok img =>
          simp only [himg] at hmsg
          exact Except.noConfusion hmsg
    · intro hrange
      exact ⟨"Please select between 1 and 4 recipes.",
        by rw [generate_layout, if_pos hrange]⟩
  · intro _ hmem
    exact resolve_selection_ok_all catalog names hmem

/-- Witness for C4: a singleton selection of a known name resolves to exactly
that recipe, in order. -/
theorem C4_modeA_count_and_order_witness :
    resolve_selection catGH ["GH"] = .ok [rGH] := by
  have h := (C4_modeA_count_and_order catGH storeNone ["GH"]).2 (by decide) (by decide)
  exact h.1.trans (by decide)

theorem resolve_selection_first_missing (catalog : Catalog) :
    ∀ names : List String, (∃ nm ∈ names, catalog.lookup nm = none) →
    ∃ nm, nm ∈ names ∧ catalog.lookup nm = none ∧
      resolve_selection catalog names = .error (.keyError nm) := by
  intro names
  induction names with
  | nil => rintro ⟨nm, hmem, _⟩; simp at hmem
  | cons a rest ih =>
    rintro ⟨nm, hmem, hnone⟩
    cases hla : catalog.lookup a with
    | none =>
      exact ⟨a, List.mem_cons_self _ _, hla,
        by simp [resolve_selection, mapExcept, lookup_recipe, hla]⟩
    | some r =>
      have hmem2 : nm ∈ rest := by
        rcases List.mem_cons.mp hmem with rfl | h2
        · rw [hla] at hnone; exact Option.noConfusion hnone
        · exact h2
      obtain ⟨nm2, hm2, hn2, hres⟩ := ih ⟨nm, hmem2, hnone⟩
      refine ⟨nm2, List.mem_cons_of_mem _ hm2, hn2, ?_⟩
      rw [resolve_selection] at hres
      simp only [resolve_selection, mapExcept, lookup_recipe, hla, hres]

/-- C10: if any selected name of a selection of valid length 1-4 is not a key
of the catalog, the end-to-end layout operation fails with a plain key-lookup
error (`KeyError`), not a user-facing validation error, and produces no
canvas or position maps. -/
theorem C10_unknown_name_keyerror (catalog : Catalog) (store : AssetStore)
    (names : List String) (h1 : 1 ≤ names.length) (h4 : names.length ≤ 4)
    (hmiss : ∃ nm ∈ names, catalog.lookup nm = none) :
    ∃ nm, nm ∈ names ∧ catalog.lookup nm = none ∧
      generate_layout catalog store names = .error (.keyError nm) ∧
      ∀ out, generate_layout catalog store names ≠ .ok out := by
  obtain ⟨nm, hmem, hnone, hres⟩ := resolve_selection_first_missing catalog names hmiss
  have hgen : generate_layout catalog store names = .error (.keyError nm) := by
    rw [generate_layout, if_neg (not_not_intro ⟨h1, h4⟩), hres]
  refine ⟨nm, hmem, hnone, hgen, ?_⟩
  intro out hout
  rw [hgen] at hout
  exact Except.noConfusion hout

/-- Witness for C10: with an empty catalog, the selection `["X"]` of valid
length fails with `KeyError "X"`. -/
theorem C10_unknown_name_keyerror_witness :
    generate_layout ([] : Catalog) storeNone ["X"] = .error (.keyError "X") := by
  obtain ⟨nm, hmem, _, hgen, _⟩ := C10_unknown_name_keyerror ([] : Catalog) storeNone
    ["X"] (by decide) (by decide) ⟨"X", by decide, rfl⟩
  have hx : nm = "X" := List.mem_singleton.mp hmem
  rw [hx] at hgen
  exact hgen

theorem lookup_zip_of_nodup :
    ∀ (l1 : List Int) (l2 : List Nat) (i : Nat) (a : Int), l1.Nodup →
    l1[i]? = some a → l1.length ≤ l2.length → (l1.zip l2).lookup a = l2[i]? := by
  intro l1
  induction l1 with
  | nil => intro l2 i a _ hga _; simp at hga
  | cons x xs ih =>
    intro l2 i a hnd hga hlen
    cases l2 with
    | nil => simp at hlen
    | cons y ys =>
      cases i with
      | zero =>
        simp only [List.getElem?_cons_zero] at hga
        cases hga
        simp [List.zip_cons_cons, List.lookup]
      | succ j =>
        have hga2 : xs[j]? = some a := by simpa using hga
        have hne : a ≠ x := by
          intro heq
          subst heq
          exact (List.nodup_cons.mp hnd).1 (List.getElem?_mem hga2)
        simp only [List.zip_cons_cons, List.lookup, beq_eq_false_iff_ne.mpr hne,
          List.getElem?_cons_succ]
        exact ih ys j a (List.nodup_cons.mp hnd).2 hga2 (Nat.le_of_succ_le_succ hlen)

theorem lookup_zip_isSome :
    ∀ (l1 : List Int) (l2 : List Nat) (a : Int), a ∈ l1 → l1.length ≤ l2.length →
    ((l1.zip l2).lookup a).isSome := by
  intro l1
  induction l1 with
  | nil => intro l2 a hmem _; simp at hmem
  | cons x xs ih =>
    intro l2 a hmem hlen
    cases l2 with
    | nil => simp at hlen
    | cons y ys =>
      by_cases hax : a = x
      · subst hax
        simp [List.zip_cons_cons, List.lookup]
      · simp only [List.zip_cons_cons, List.lookup, beq_eq_false_iff_ne.mpr hax]
        refine ih ys a ?_ (Nat.le_of_succ_le_succ hlen)
        rcases List.mem_cons.mp hmem with rfl | h2
        · exact absurd rfl hax
        · exact h2

theorem tokens_cover_range (tokens : List Int) (N : Nat) (hnd : tokens.Nodup)
    (hlen : tokens.length = N) (hrange : ∀ t ∈ tokens, 1 ≤ t ∧ t ≤ (N : Int)) :
    ∀ k : Nat, k < N → ((k : Int) + 1) ∈ tokens := by
  have hsub : tokens ⊆ (List.range N).map (fun k : Nat => (k : Int) + 1) := by
    intro t ht
    obtain ⟨ht1, ht2⟩ := hrange t ht
    refine List.mem_map.mpr ⟨(t - 1).toNat, List.mem_range.mpr ?_, ?_⟩
    · omega
    · show ((t - 1).toNat : Int) + 1 = t
      omega
  have hperm : tokens.Perm ((List.range N).map (fun k : Nat => (k : Int) + 1)) :=
    (hnd.subperm hsub).perm_of_length_le (by simp [hlen])
  intro k hk
  exact hperm.mem_iff.mpr (List.mem_map.mpr ⟨k, List.mem_range.mpr hk, rfl⟩)

/-- C7, settled against a model of the spec's Mode B (the resolver is not in
src/app.py): after validation, the resolver sorts the selected catalog
indices ascending, pairs the i-th sorted index with the i-th order token in
typed order, and emits by visiting order-numbers 1..N ascending: the result
has length N and its k-th entry is the sorted index paired with the token
`k+1`, wherever that token was typed. -/
theorem C7_modeB_sorted_pairing (selected : List Nat) (orderInput : String)
    (tokens : List Int) (L : List Nat)
    (hp : parseOrderInput orderInput = some tokens)
    (hok : modeB_resolve selected orderInput = .ok L) :
    List.Sorted (· ≤ ·) (List.insertionSort (· ≤ ·) selected) ∧
    (List.insertionSort (· ≤ ·) selected).Perm selected ∧
    L.length = selected.length ∧
    (∀ k i : Nat, k < selected.length → tokens[i]? = some ((k : Int) + 1) →
      L[k]? = (List.insertionSort (· ≤ ·) selected)[i]?) := by
  simp only [modeB_resolve, hp] at hok
  by_cases hcount : 1 ≤ selected.length ∧ selected.length ≤ 4
  · rw [if_neg (not_not_intro hcount)] at hok
    by_cases hlen : tokens.length = selected.length
    · rw [if_neg (not_not_intro hlen)] at hok
      by_cases hnd : tokens.Nodup
      · rw [if_neg (not_not_intro hnd)] at hok
        by_cases hrange : ∀ t ∈ tokens, 1 ≤ t ∧ t ≤ (selected.length : Int)
        · rw [if_neg (not_not_intro hrange)] at hok
          have hL : L = (List.range selected.length).filterMap
              (fun k : Nat => (tokens.zip (List.insertionSort (· ≤ ·) selected)).lookup
                ((k : Int) + 1)) := (Except.ok.inj hok).symm
          have hsortlen : (List.insertionSort (· ≤ ·) selected).length = selected.length :=
            (List.perm_insertionSort (· ≤ ·) selected).length_eq
          have hcover := tokens_cover_range tokens selected.length hnd hlen hrange
          have hallsome : ∀ k ∈ List.range selected.length,
              ((tokens.zip (List.insertionSort (· ≤ ·) selected)).lookup
                ((k : Int) + 1)).isSome := by
            intro k hk
            exact lookup_zip_isSome tokens (List.insertionSort (· ≤ ·) selected)
              ((k : Int) + 1) (hcover k (List.mem_range.mp hk))
              (by rw [hlen, hsortlen])
          refine ⟨List.sorted_insertionSort (· ≤ ·) selected,
            List.perm_insertionSort (· ≤ ·) selected, ?_, ?_⟩
          · rw [hL, length_filterMap_of_isSome _ _ hallsome, List.length_range]
          · intro k i hk hti
            rw [hL, getElem?_filterMap_of_isSome _ _ hallsome k,
              List.getElem?_range hk]
            exact lookup_zip_of_nodup tokens (List.insertionSort (· ≤ ·) selected)
              i ((k : Int) + 1) hnd hti (by rw [hlen, hsortlen])
        · rw [if_pos hrange] at hok
          exact Except.noConfusion hok
      · rw [if_pos hnd] at hok
        exact Except.noConfusion hok
    · rw [if_pos hlen] at hok
      exact Except.noConfusion hok
  · rw [if_pos hcount] at hok
    exact Except.noConfusion hok

/-- Witness for C7 at the spec's example: selection indices `[3, 1]` with
order string `"2,1"` resolve to `[3, 1]` (catalog index 3 first). -/
theorem C7_modeB_sorted_pairing_witness :
    modeB_resolve [3, 1] "2,1" = .ok [3, 1] ∧
    (List.Sorted (· ≤ ·) (List.insertionSort (· ≤ ·) ([3, 1] : List Nat)) ∧
      (List.insertionSort (· ≤ ·) ([3, 1] : List Nat)).Perm [3, 1] ∧
      ([3, 1] : List Nat).length = ([3, 1] : List Nat).length ∧
      (∀ k i : Nat, k < ([3, 1] : List Nat).length →
        ([2, 1] : List Int)[i]? = some ((k : Int) + 1) →
        ([3, 1] : List Nat)[k]? = (List.insertionSort (· ≤ ·) ([3, 1] : List Nat))[i]?)) :=
  ⟨by decide, C7_modeB_sorted_pairing [3, 1] "2,1" [2, 1] [3, 1] (by decide) (by decide)⟩

end Hawarma
